import Mathlib

/-!
Shallow embedding of `create_heatmap.py` (Lawgent-Infographics).

The program loads per-year CSV files of H1B sponsor records, computes
year-over-year rank changes by case-insensitive name matching, assigns a
deterministic HSL color to each record from its position in the
beneficiaries-descending order, and serializes the result into an HTML
document.  We model the data-transformation pipeline: the textual
primitives (`parse_number`, `parse_ranking_change`), the loader
(`read_csv_data`), the rank-delta pass (`calculate_rank_changes`), the
color pass (`generate_color`, `process_companies`), the per-year loop of
`generate_heatmap_html`, and the data-flow skeleton of `main`.

Modelling conventions:
* Python strings are Lean `String`s; `.strip()`, `.lower()`, `.isdigit()`
  and substring tests are modelled on the character lists (ASCII model of
  `str.lower`).
* Python `int` is `ℤ`; `rank` (checked to be all digits) is `ℕ`.
* The float arithmetic in `generate_color` is modelled exactly over `ℚ`;
  the source finally formats the three components into an `hsl(...)`
  string, which we keep as a structured triple.
* `calculate_rank_changes` mutates records in place in the source; the
  overwritten fields are never read again upstream, so a functional
  update is an equivalent model.
-/

/-- The whitespace characters recognized by Python `str.strip()` /
`int()` (space, tab, newline, carriage return, vertical tab, form feed). -/
def isPyWs (c : Char) : Bool :=
  c == ' ' || c == '\t' || c == '\n' || c == '\r' ||
  c == Char.ofNat 11 || c == Char.ofNat 12

/-- Remove leading and trailing whitespace from a character list. -/
def stripWsList (l : List Char) : List Char :=
  ((l.dropWhile isPyWs).reverse.dropWhile isPyWs).reverse

/-- Python `str.strip()`. -/
def pyStrip (s : String) : String :=
  String.mk (stripWsList s.toList)

/-- Python `str.lower()` (ASCII model). -/
def pyLower (s : String) : String :=
  String.mk (s.toList.map Char.toLower)

/-- Python `str.isdigit()` (ASCII model): nonempty and all digit chars. -/
def pyIsDigit (s : String) : Bool :=
  !s.isEmpty && s.toList.all Char.isDigit

/-- Numeric value of a list of digit characters (base 10, left to right). -/
def digitsVal (l : List Char) : ℕ :=
  l.foldl (fun acc c => 10 * acc + (c.toNat - '0'.toNat)) 0

/-- Digit-group validation used by Python `int()`: after an initial
digit, digits may continue, with single underscores allowed only between
digits.  Returns the digits with underscores removed, or `none` when the
grouping is malformed. -/
def pyDigitsGo : List Char → Option (List Char)
  | [] => some []
  | '_' :: rest =>
    match rest with
    | [] => none
    | d :: _ => if d.isDigit then pyDigitsGo rest else none
  | c :: rest => if c.isDigit then (pyDigitsGo rest).map (c :: ·) else none

/-- Parse a nonempty all-digit group (with underscore separators) as a
natural number, in the style of Python `int()`. -/
def pyIntNat (l : List Char) : Option ℕ :=
  match l with
  | [] => none
  | c :: _ => if c.isDigit then (pyDigitsGo l).map digitsVal else none

/-- Python `int(s)` on a string: surrounding whitespace is ignored, an
optional sign precedes the digits, and anything else fails (`none`). -/
def pyInt (s : String) : Option ℤ :=
  match stripWsList s.toList with
  | '+' :: rest => (pyIntNat rest).map (fun n => (n : ℤ))
  | '-' :: rest => (pyIntNat rest).map (fun n => -(n : ℤ))
  | t => (pyIntNat t).map (fun n => (n : ℤ))

/-- The cleaning step of `parse_number`:
`str(value).strip().replace('"', '').replace("'", '').replace(',', '').replace(' ', '')`. -/
def pnCleaned (value : String) : String :=
  String.mk ((pyStrip value).toList.filter
    (fun c => c != '"' && c != '\'' && c != ',' && c != ' '))

/-- `parse_number`: parse a number with commas, quotes and spaces;
any value that still fails `int()` after cleaning yields `0`. -/
def parse_number (value : String) : ℤ :=
  if value = "" then 0
  else
    match pyInt (pnCleaned value) with
    | some n => n
    | none => 0

/-- Rank-movement direction of a record. -/
inductive Direction where
  | up
  | down
deriving DecidableEq, Repr

/-- Does `sub` occur as a contiguous sublist of `l`? -/
def containsSeq (sub : List Char) : List Char → Bool
  | [] => sub.isPrefixOf []
  | c :: rest => sub.isPrefixOf (c :: rest) || containsSeq sub rest

/-- Python `sub in s` substring test. -/
def pyContains (s sub : String) : Bool :=
  containsSeq sub.toList s.toList

/-- `re.search(r'\d+', s)`: value of the first maximal digit run. -/
def firstDigitRun : List Char → Option ℕ
  | [] => none
  | c :: rest =>
    if c.isDigit then some (digitsVal (c :: rest.takeWhile Char.isDigit))
    else firstDigitRun rest

/-- `parse_ranking_change`: parse a ranking-change annotation such as
`⬇️1` or `⬆️1` into a direction and magnitude; the magnitude defaults to
`0` when no digits follow the glyph. -/
def parse_ranking_change (value : String) : Option Direction × Option ℤ :=
  if value = "" then (none, none)
  else if pyContains value "⬇️" then
    (some .down, some ((firstDigitRun value.toList).getD 0 : ℕ))
  else if pyContains value "⬆️" then
    (some .up, some ((firstDigitRun value.toList).getD 0 : ℕ))
  else (none, none)

/-- One CSV row as seen through `csv.DictReader`: each recognized column
label maps to its cell text, absent columns read as `""`. -/
structure Row where
  /-- column `rank` -/
  rank : String := ""
  /-- column `简称 Employer (Petitioner) Name` -/
  shortName : String := ""
  /-- column `Employer (Petitioner) Name` -/
  employerName : String := ""
  /-- column `全名 Employer (Petitioner) Name` -/
  fullName : String := ""
  /-- column `是否ICC` -/
  isIcc : String := ""
  /-- column `Beneficiaries Approved` -/
  beneficiariesApproved : String := ""
  /-- column `TOTAL` -/
  total : String := ""
  /-- column `排名变化` -/
  rankChange : String := ""
deriving DecidableEq, Repr

/-- A parsed company record, as built by `read_csv_data`. -/
structure Company where
  rank : ℕ
  is_icc : Bool
  name : String
  full_name : String
  beneficiaries : ℤ
  rank_change_direction : Option Direction
  rank_change_value : Option ℤ
  year : Option ℕ
deriving DecidableEq, Repr

/-- Company-name resolution of `read_csv_data`:
`(row.get('简称 Employer (Petitioner) Name', '') or
row.get('Employer (Petitioner) Name', '')).strip()` — the first
non-empty column wins, then whitespace is stripped. -/
def resolvedName (row : Row) : String :=
  pyStrip (if row.shortName ≠ "" then row.shortName else row.employerName)

/-- Beneficiaries-column resolution of `read_csv_data`:
`row.get('Beneficiaries Approved', '') or row.get('TOTAL', '')`. -/
def beneficiariesField (row : Row) : String :=
  if row.beneficiariesApproved ≠ "" then row.beneficiariesApproved else row.total

/-- The per-row body of `read_csv_data`: `none` exactly when the row is
skipped (missing/non-numeric rank, or empty name). -/
def parseRow (year : Option ℕ) (row : Row) : Option Company :=
  let rank := pyStrip row.rank
  if rank = "" || !pyIsDigit rank then none
  else
    let name := resolvedName row
    if name = "" then none
    else
      let full0 := pyStrip row.fullName
      let full_name := if full0 = "" then name else full0
      let is_icc := pyStrip row.isIcc = "Y"
      let beneficiaries_str := beneficiariesField row
      let beneficiaries :=
        if beneficiaries_str ≠ "" then parse_number beneficiaries_str else 0
      let rank_change := pyStrip row.rankChange
      let dc := parse_ranking_change rank_change
      some
        { rank := digitsVal rank.toList
          is_icc := is_icc
          name := name
          full_name := full_name
          beneficiaries := beneficiaries
          rank_change_direction := dc.1
          rank_change_value := dc.2
          year := year }

/-- `read_csv_data`: read and parse CSV rows, skipping empty/summary
rows (rank missing or non-numeric) and rows with an empty name. -/
def read_csv_data (rows : List Row) (year : Option ℕ) : List Company :=
  rows.filterMap (parseRow year)

-- Quick sanity checks of the loader model.
example :
    read_csv_data [{ rank := "1", shortName := "Amazon",
                     beneficiariesApproved := "\"4,074\"" }] (some 2025) =
      [{ rank := 1, is_icc := false, name := "Amazon", full_name := "Amazon",
         beneficiaries := 4074, rank_change_direction := none,
         rank_change_value := none, year := some 2025 }] := by decide

example : parse_number "1,234" = 1234 := by decide
example : parse_number " 1234 " = 1234 := by decide
example : parse_number "abc" = 0 := by decide
example : parse_ranking_change "⬆️3" = (some .up, some 3) := by decide
example : parse_ranking_change "⬇️12" = (some .down, some 12) := by decide
example : parse_ranking_change "-" = (none, none) := by decide

/-- The name key used by `calculate_rank_changes`:
`c['name'].lower().strip()`. -/
def nameKey (c : Company) : String :=
  pyStrip (pyLower c.name)

/-- `prev_rank_map[name_key] = c['rank']`: one dictionary insertion. -/
def insertRank (m : String → Option ℕ) (c : Company) : String → Option ℕ :=
  fun k => if k = nameKey c then some c.rank else m k

/-- The `prev_rank_map` dictionary built from the previous year's
records (later insertions win). -/
def buildRankMap (prev : List Company) : String → Option ℕ :=
  prev.foldl insertRank (fun _ => none)

/-- The body of the `for c in current_companies` loop of
`calculate_rank_changes` as a functional record update. -/
def updateRankChange (prevMap : String → Option ℕ) (c : Company) : Company :=
  match prevMap (nameKey c) with
  | some prev_rank =>
    let change : ℤ := (prev_rank : ℤ) - (c.rank : ℤ)
    if change > 0 then
      { c with rank_change_direction := some .up, rank_change_value := some change }
    else if change < 0 then
      { c with rank_change_direction := some .down, rank_change_value := some |change| }
    else
      { c with rank_change_direction := none, rank_change_value := none }
  | none =>
    { c with rank_change_direction := none, rank_change_value := none }

/-- `calculate_rank_changes`: recompute each current record's rank
change against the previous year's name→rank map, overwriting whatever
was parsed from the CSV.  When either list is empty the current records
are returned unchanged. -/
def calculate_rank_changes (prev_companies current_companies : List Company) :
    List Company :=
  if prev_companies = [] || current_companies = [] then current_companies
  else
    current_companies.map (updateRankChange (buildRankMap prev_companies))

/-- The three components of the `hsl(h, s%, l%)` string produced by
`generate_color` (the source formats them into a CSS color string). -/
structure HSL where
  hue : ℚ
  saturation : ℚ
  lightness : ℚ
deriving DecidableEq, Repr

/-- `generate_color`: purple family for ICC companies, green family
otherwise; saturation 15–30% and lightness 85–60% vary with the record's
position among all records of the year. -/
def generate_color (is_icc : Bool) (index total : ℕ) : HSL :=
  if is_icc then
    { hue := 270
      saturation := 15 + ((index : ℚ) / (total : ℚ)) * 15
      lightness := 85 - ((index : ℚ) / (total : ℚ)) * 25 }
  else
    { hue := 140
      saturation := 15 + ((index : ℚ) / (total : ℚ)) * 15
      lightness := 85 - ((index : ℚ) / (total : ℚ)) * 25 }

/-- A serialized record as emitted by `process_companies` (the `year`
tag is dropped and a color is attached). -/
structure ProcessedCompany where
  name : String
  full_name : String
  beneficiaries : ℤ
  rank : ℕ
  is_icc : Bool
  rank_change_direction : Option Direction
  rank_change_value : Option ℤ
  brand_color : HSL
deriving DecidableEq, Repr

/-- The descending-beneficiaries order used by
`sorted(companies_list, key=lambda x: x['beneficiaries'], reverse=True)`. -/
def benGe (a b : Company) : Prop :=
  b.beneficiaries ≤ a.beneficiaries

instance : DecidableRel benGe := fun a b => by
  unfold benGe; infer_instance

/-- `process_companies`: sort a year's records by beneficiaries
descending (stably, as Python's `sorted`) and attach each record's
position-dependent color. -/
def process_companies (companies_list : List Company) : List ProcessedCompany :=
  let companies_sorted := List.insertionSort benGe companies_list
  companies_sorted.enum.map (fun ic =>
    { name := ic.2.name
      full_name := ic.2.full_name
      beneficiaries := ic.2.beneficiaries
      rank := ic.2.rank
      is_icc := ic.2.is_icc
      rank_change_direction := ic.2.rank_change_direction
      rank_change_value := ic.2.rank_change_value
      brand_color := generate_color ic.2.is_icc ic.1 companies_sorted.length })

/-- `years = sorted(all_years_data.keys())` for an association-list
model of the `all_years_data` dictionary. -/
def sortedYears (d : List (ℕ × List Company)) : List ℕ :=
  List.insertionSort (· ≤ ·) (d.map Prod.fst)

/-- `all_years_data[year]` (years drawn from the key list always hit). -/
def lookupYear (d : List (ℕ × List Company)) (y : ℕ) : List Company :=
  ((d.find? (fun e => e.1 == y)).map Prod.snd).getD []

/-- The per-year loop of `generate_heatmap_html`: the first processed
year is emitted as loaded, every later year first has its rank changes
recomputed against the previous year in the sorted key order. -/
def processLoop (d : List (ℕ × List Company)) :
    Option ℕ → List ℕ → List (ℕ × List ProcessedCompany)
  | _, [] => []
  | prevYear, y :: rest =>
    let companies := lookupYear d y
    let companies2 :=
      match prevYear with
      | none => companies
      | some py => calculate_rank_changes (lookupYear d py) companies
    (y, process_companies companies2) :: processLoop d (some y) rest

/-- The data pipeline of `generate_heatmap_html`: rank-change and color
passes applied to every loaded year in sorted order (the HTML/JSON
serialization around this data is presentation only). -/
def generate_heatmap_data (d : List (ℕ × List Company)) :
    List (ℕ × List ProcessedCompany) :=
  processLoop d none (sortedYears d)

/-- The year range hard-coded in `main`: 2016–2025. -/
def configuredYears : List ℕ :=
  List.range' 2016 10

/-- One iteration of `main`'s loading loop: a missing file or a year
whose rows all get skipped contributes nothing to `all_years_data`. -/
def loadYear (files : ℕ → Option (List Row)) (y : ℕ) :
    Option (ℕ × List Company) :=
  match files y with
  | none => none
  | some rows =>
    let companies := read_csv_data rows (some y)
    if companies = [] then none else some (y, companies)

/-- `all_years_data` after `main`'s loading loop. -/
def loadedData (files : ℕ → Option (List Row)) : List (ℕ × List Company) :=
  configuredYears.filterMap (loadYear files)

/-- Observable outcome of `main`.  Python's bare `return` on the
no-data path raises nothing, so the process exit code is `0` on both
paths; we record it explicitly. -/
inductive MainOutcome where
  | aborted (message : String) (exitCode : ℕ)
  | generated (output : List (ℕ × List ProcessedCompany)) (exitCode : ℕ)
deriving DecidableEq

/-- Process exit code of an outcome. -/
def exitCodeOf : MainOutcome → ℕ
  | .aborted _ code => code
  | .generated _ code => code

/-- Data-flow skeleton of `main`: load every configured year, abort
with an error message when nothing loaded, otherwise generate the
heatmap data. -/
def mainModel (files : ℕ → Option (List Row)) : MainOutcome :=
  let all_years_data := loadedData files
  if all_years_data = [] then
    .aborted "❌ Error: No data found for any year!" 0
  else
    .generated (generate_heatmap_data all_years_data) 0

/-! ### Properties of the previous-year rank map -/

lemma foldl_insertRank_apply_of_forall_ne {l : List Company} {k : String}
    (h : ∀ p ∈ l, nameKey p ≠ k) (m : String → Option ℕ) :
    (l.foldl insertRank m) k = m k := by
  induction l generalizing m with
  | nil => rfl
  | cons a t ih =>
    simp only [List.foldl_cons]
    rw [ih (fun p hp => h p (List.mem_cons_of_mem _ hp))]
    have hne : k ≠ nameKey a := fun e => h a (List.mem_cons_self a t) e.symm
    simp [insertRank, hne]

lemma foldl_insertRank_apply_some {l : List Company} {p : Company} {k : String}
    (hnd : (l.map nameKey).Nodup) (hp : p ∈ l) (hk : nameKey p = k)
    (m : String → Option ℕ) :
    (l.foldl insertRank m) k = some p.rank := by
  induction l generalizing m with
  | nil => cases hp
  | cons a t ih =>
    simp only [List.foldl_cons]
    have hnd' : (nameKey a :: t.map nameKey).Nodup := by simpa using hnd
    rcases List.mem_cons.mp hp with rfl | hp'
    · have hnotin : ∀ q ∈ t, nameKey q ≠ k := by
        intro q hq e
        exact (List.nodup_cons.mp hnd').1 (hk ▸ e ▸ List.mem_map_of_mem nameKey hq)
      rw [foldl_insertRank_apply_of_forall_ne hnotin]
      simp [insertRank, hk]
    · exact ih (by simpa using (List.nodup_cons.mp hnd').2) hp' _

lemma foldl_insertRank_apply_mem {l : List Company} {k : String} {r : ℕ}
    (m : String → Option ℕ) (h : (l.foldl insertRank m) k = some r) :
    (∃ p ∈ l, nameKey p = k ∧ p.rank = r) ∨ m k = some r := by
  induction l generalizing m with
  | nil => exact Or.inr h
  | cons a t ih =>
    simp only [List.foldl_cons] at h
    rcases ih (insertRank m a) h with h1 | h2
    · obtain ⟨p, hp, hk, hr⟩ := h1
      exact Or.inl ⟨p, List.mem_cons_of_mem _ hp, hk, hr⟩
    · unfold insertRank at h2
      by_cases e : k = nameKey a
      · rw [if_pos e] at h2
        exact Or.inl ⟨a, List.mem_cons_self a t, e.symm, (Option.some.inj h2)⟩
      · rw [if_neg e] at h2
        exact Or.inr h2

lemma buildRankMap_eq_none {prev : List Company} {k : String}
    (h : ∀ p ∈ prev, nameKey p ≠ k) : buildRankMap prev k = none :=
  foldl_insertRank_apply_of_forall_ne h _

lemma buildRankMap_eq_some {prev : List Company} {p : Company} {k : String}
    (hnd : (prev.map nameKey).Nodup) (hp : p ∈ prev) (hk : nameKey p = k) :
    buildRankMap prev k = some p.rank :=
  foldl_insertRank_apply_some hnd hp hk _

lemma exists_of_buildRankMap_some {prev : List Company} {k : String} {r : ℕ}
    (h : buildRankMap prev k = some r) :
    ∃ p ∈ prev, nameKey p = k ∧ p.rank = r := by
  rcases foldl_insertRank_apply_mem _ h with h1 | h2
  · exact h1
  · cases h2

lemma mem_zip_self_map {α β : Type*} (f : α → β) :
    ∀ {l : List α} {pr : α × β}, pr ∈ l.zip (l.map f) → pr.1 ∈ l ∧ pr.2 = f pr.1 := by
  intro l
  induction l with
  | nil => intro pr h; simp at h
  | cons a t ih =>
    intro pr h
    simp only [List.map_cons, List.zip_cons_cons, List.mem_cons] at h
    rcases h with rfl | h
    · exact ⟨List.mem_cons_self a t, rfl⟩
    · obtain ⟨h1, h2⟩ := ih h
      exact ⟨List.mem_cons_of_mem _ h1, h2⟩

lemma updateRankChange_of_none {m : String → Option ℕ} {c : Company}
    (hm : m (nameKey c) = none) :
    updateRankChange m c =
      { c with rank_change_direction := none, rank_change_value := none } := by
  unfold updateRankChange
  rw [hm]

lemma updateRankChange_of_pos {m : String → Option ℕ} {c : Company} {r : ℕ}
    (hm : m (nameKey c) = some r) (h : (r : ℤ) - (c.rank : ℤ) > 0) :
    updateRankChange m c =
      { c with rank_change_direction := some .up,
               rank_change_value := some ((r : ℤ) - (c.rank : ℤ)) } := by
  unfold updateRankChange
  rw [hm]
  dsimp only
  rw [if_pos h]

lemma updateRankChange_of_neg {m : String → Option ℕ} {c : Company} {r : ℕ}
    (hm : m (nameKey c) = some r) (h : (r : ℤ) - (c.rank : ℤ) < 0) :
    updateRankChange m c =
      { c with rank_change_direction := some .down,
               rank_change_value := some ((c.rank : ℤ) - (r : ℤ)) } := by
  unfold updateRankChange
  rw [hm]
  dsimp only
  rw [if_neg (by omega), if_pos h, abs_of_neg h, neg_sub]

lemma updateRankChange_of_zero {m : String → Option ℕ} {c : Company} {r : ℕ}
    (hm : m (nameKey c) = some r) (h : (r : ℤ) - (c.rank : ℤ) = 0) :
    updateRankChange m c =
      { c with rank_change_direction := none, rank_change_value := none } := by
  unfold updateRankChange
  rw [hm]
  dsimp only
  rw [if_neg (by omega), if_neg (by omega)]

/-! ### C1: rank-delta computation -/

/-- **C1.** For nonempty previous and current record sets (loaded years
are nonempty) with distinct previous-year name keys, the rank-delta
pass leaves each record's name and rank unchanged and, for a current
record matching a previous record by case-insensitive stripped name,
sets `delta = previous_rank − current_rank`: direction `up` with
magnitude `delta` when positive, `down` with magnitude `|delta|` when
negative, and no direction when zero; records with no match get no
direction. -/
theorem rank_delta_spec (prev current : List Company)
    (hprev : prev ≠ []) (hnd : (prev.map nameKey).Nodup) :
    ∀ pr ∈ current.zip (calculate_rank_changes prev current),
      pr.2.name = pr.1.name ∧ pr.2.rank = pr.1.rank ∧
      (∀ p ∈ prev, nameKey p = nameKey pr.1 →
        (((p.rank : ℤ) - (pr.1.rank : ℤ) > 0 →
            pr.2.rank_change_direction = some .up ∧
            pr.2.rank_change_value = some ((p.rank : ℤ) - (pr.1.rank : ℤ))) ∧
         ((p.rank : ℤ) - (pr.1.rank : ℤ) < 0 →
            pr.2.rank_change_direction = some .down ∧
            pr.2.rank_change_value = some ((pr.1.rank : ℤ) - (p.rank : ℤ))) ∧
         ((p.rank : ℤ) - (pr.1.rank : ℤ) = 0 →
            pr.2.rank_change_direction = none ∧
            pr.2.rank_change_value = none))) ∧
      ((∀ p ∈ prev, nameKey p ≠ nameKey pr.1) →
        pr.2.rank_change_direction = none ∧ pr.2.rank_change_value = none) := by
  intro pr hpr
  by_cases hcur : current = []
  · subst hcur
    simp [calculate_rank_changes] at hpr
  · unfold calculate_rank_changes at hpr
    rw [if_neg (by simp [hprev, hcur])] at hpr
    obtain ⟨hc1, hc2⟩ := mem_zip_self_map _ hpr
    rcases hm : buildRankMap prev (nameKey pr.1) with _ | r
    · rw [hc2, updateRankChange_of_none hm]
      refine ⟨rfl, rfl, ?_, fun _ => ⟨rfl, rfl⟩⟩
      intro p hp hk
      rw [buildRankMap_eq_some hnd hp hk] at hm
      cases hm
    · obtain ⟨p0, hp0, hk0, hr0⟩ := exists_of_buildRankMap_some hm
      have hnomatch : ¬ (∀ p ∈ prev, nameKey p ≠ nameKey pr.1) :=
        fun hno => hno p0 hp0 hk0
      have key : ∀ p ∈ prev, nameKey p = nameKey pr.1 → p.rank = r := by
        intro p hp hk
        have h2 := buildRankMap_eq_some hnd hp hk
        rw [hm] at h2
        exact (Option.some.inj h2).symm
      rcases lt_trichotomy ((r : ℤ) - (pr.1.rank : ℤ)) 0 with h | h | h
      · rw [hc2, updateRankChange_of_neg hm h]
        refine ⟨rfl, rfl, ?_, fun hno => absurd hno hnomatch⟩
        intro p hp hk
        have hpr0 := key p hp hk
        refine ⟨fun hpos => absurd hpos (by omega),
                fun _ => ?_, fun h0 => absurd h0 (by omega)⟩
        rw [hpr0]
        exact ⟨rfl, rfl⟩
      · rw [hc2, updateRankChange_of_zero hm h]
        refine ⟨rfl, rfl, ?_, fun hno => absurd hno hnomatch⟩
        intro p hp hk
        have hpr0 := key p hp hk
        exact ⟨fun hpos => absurd hpos (by omega),
               fun hneg => absurd hneg (by omega), fun _ => ⟨rfl, rfl⟩⟩
      · rw [hc2, updateRankChange_of_pos hm h]
        refine ⟨rfl, rfl, ?_, fun hno => absurd hno hnomatch⟩
        intro p hp hk
        have hpr0 := key p hp hk
        refine ⟨fun _ => ?_, fun hneg => absurd hneg (by omega),
                fun h0 => absurd h0 (by omega)⟩
        rw [hpr0]
        exact ⟨rfl, rfl⟩

/-- Previous-year record used in concrete checks: Acme at rank 5. -/
def prevAcme : Company :=
  { rank := 5, is_icc := false, name := "Acme", full_name := "Acme Corp",
    beneficiaries := 100, rank_change_direction := none,
    rank_change_value := none, year := some 2016 }

/-- Current-year record used in concrete checks: Acme at rank 3. -/
def curAcme : Company :=
  { rank := 3, is_icc := false, name := "ACME", full_name := "Acme Corp",
    beneficiaries := 120, rank_change_direction := none,
    rank_change_value := none, year := some 2017 }

/-- `curAcme` after the rank-delta pass: up by 2. -/
def curAcmeAfter : Company :=
  { curAcme with rank_change_direction := some .up,
                 rank_change_value := some 2 }

theorem rank_delta_spec_witness :
    curAcmeAfter.rank_change_direction = some Direction.up ∧
    curAcmeAfter.rank_change_value = some ((5 : ℤ) - (3 : ℤ)) := by
  have h := rank_delta_spec [prevAcme] [curAcme] (by decide) (by decide)
    (curAcme, curAcmeAfter) (by decide)
  have h3 := h.2.2.1 prevAcme (by decide) (by decide)
  exact h3.1 (by decide)

/-! ### C6: numeric parsing -/

/-- **C6.** `parse_number` is invariant under thousands-separators,
surrounding quotes, and whitespace — `"1,234"`, `"\"1234\""` and
`" 1234 "` all parse to `1234` — and any value whose cleaned form still
fails integer parsing yields `0` rather than an error. -/
theorem parse_number_invariance :
    parse_number "1,234" = 1234 ∧
    parse_number "\"1234\"" = 1234 ∧
    parse_number " 1234 " = 1234 ∧
    ∀ value : String, pyInt (pnCleaned value) = none → parse_number value = 0 := by
  refine ⟨by decide, by decide, by decide, ?_⟩
  intro v hv
  unfold parse_number
  by_cases h : v = ""
  · rw [if_pos h]
  · rw [if_neg h, hv]

theorem parse_number_invariance_witness :
    pyInt (pnCleaned "N/A") = none ∧ parse_number "N/A" = 0 :=
  ⟨by decide, parse_number_invariance.2.2.2 "N/A" (by decide)⟩

/-! ### C5: loader guarantees -/

/-- The row filter implied by `read_csv_data`: the stripped rank is a
nonempty digit string and the resolved name is nonempty. -/
def rowPasses (row : Row) : Bool :=
  (pyStrip row.rank != "") && pyIsDigit (pyStrip row.rank) &&
  (resolvedName row != "")

lemma parseRow_isSome (year : Option ℕ) (row : Row) :
    (parseRow year row).isSome = rowPasses row := by
  unfold parseRow rowPasses
  by_cases h1 : pyStrip row.rank = "" <;>
    by_cases h2 : pyIsDigit (pyStrip row.rank) <;>
    by_cases h3 : resolvedName row = "" <;>
    simp [h1, h2, h3]

lemma length_filterMap_eq_length_filter {α β : Type*} (f : α → Option β)
    (p : α → Bool) (h : ∀ a, (f a).isSome = p a) :
    ∀ l : List α, (l.filterMap f).length = (l.filter p).length := by
  intro l
  induction l with
  | nil => rfl
  | cons a t ih =>
    rcases hfa : f a with _ | b
    · have hpa : p a = false := by rw [← h, hfa]; rfl
      simp [List.filterMap_cons, List.filter_cons, hfa, hpa, ih]
    · have hpa : p a = true := by rw [← h, hfa]; rfl
      simp [List.filterMap_cons, List.filter_cons, hfa, hpa, ih]

lemma mem_of_mem_stripWsList {c : Char} {l : List Char}
    (h : c ∈ stripWsList l) : c ∈ l := by
  unfold stripWsList at h
  rw [List.mem_reverse] at h
  have h2 := (List.dropWhile_sublist _).subset h
  rw [List.mem_reverse] at h2
  exact (List.dropWhile_sublist _).subset h2

lemma char_isDigit_bounds {c : Char} (h : c.isDigit) :
    48 ≤ c.toNat ∧ c.toNat ≤ 57 := by
  simp only [Char.isDigit, ge_iff_le, Bool.and_eq_true, decide_eq_true_eq] at h
  obtain ⟨h1, h2⟩ := h
  rw [UInt32.le_def, BitVec.le_def] at h1 h2
  exact ⟨h1, h2⟩

lemma char_eq_zero_of_toNat {c : Char} (h : c.toNat = 48) : c = '0' := by
  apply Char.ext
  apply UInt32.ext
  exact h

/-- `parse_number` of a string containing no minus sign is nonnegative. -/
lemma parse_number_nonneg {value : String} (h : '-' ∉ value.toList) :
    0 ≤ parse_number value := by
  have hminus : '-' ∉ (pnCleaned value).toList := by
    intro hc
    exact h (mem_of_mem_stripWsList (List.mem_of_mem_filter hc))
  unfold parse_number
  by_cases he : value = ""
  · rw [if_pos he]
  · rw [if_neg he]
    split
    case _ n heq =>
      unfold pyInt at heq
      split at heq
      case _ rest hsplit =>
        rcases hpn : pyIntNat rest with _ | m <;> rw [hpn] at heq <;> simp at heq
        omega
      case _ rest hsplit =>
        exfalso
        apply hminus
        apply mem_of_mem_stripWsList
        rw [hsplit]
        exact List.mem_cons_self _ _
      case _ =>
        rcases hpn : pyIntNat (stripWsList (pnCleaned value).toList) with _ | m <;>
          rw [hpn] at heq <;> simp at heq
        omega
    case _ heq => exact le_refl 0

lemma foldl_digit_step_pos (l : List Char) : ∀ acc : ℕ, 0 < acc →
    0 < l.foldl (fun acc c => 10 * acc + (c.toNat - '0'.toNat)) acc := by
  induction l with
  | nil => intro acc h; exact h
  | cons a t ih =>
    intro acc h
    simp only [List.foldl_cons]
    exact ih _ (by omega)

lemma foldl_digit_pos_of_nonzero (l : List Char) : ∀ acc : ℕ,
    (∀ c ∈ l, c.isDigit) → (∃ c ∈ l, c ≠ '0') →
    0 < l.foldl (fun acc c => 10 * acc + (c.toNat - '0'.toNat)) acc := by
  induction l with
  | nil =>
    rintro acc _ ⟨c, hc, _⟩
    cases hc
  | cons a t ih =>
    intro acc hd hnz
    simp only [List.foldl_cons]
    by_cases ha : a = '0'
    · obtain ⟨c, hc, hcne⟩ := hnz
      rcases List.mem_cons.mp hc with rfl | hct
      · exact absurd ha hcne
      · exact ih _ (fun x hx => hd x (List.mem_cons_of_mem _ hx)) ⟨c, hct, hcne⟩
    · obtain ⟨hb1, hb2⟩ := char_isDigit_bounds (hd a (List.mem_cons_self a t))
      have hne48 : a.toNat ≠ 48 := fun he => ha (char_eq_zero_of_toNat he)
      have h0 : '0'.toNat = 48 := rfl
      exact foldl_digit_step_pos t _ (by omega)

/-- A nonempty digit string containing a nonzero digit has positive value. -/
lemma digitsVal_pos {l : List Char} (hd : ∀ c ∈ l, c.isDigit)
    (hnz : ∃ c ∈ l, c ≠ '0') : 0 < digitsVal l :=
  foldl_digit_pos_of_nonzero l 0 hd hnz

/-- A CSV row with rank `"0"` and a negative beneficiaries value; both
pass the loader's checks. -/
def badRow : Row :=
  { rank := "0", shortName := "X", beneficiariesApproved := "-5" }

/-- **C5 is false as stated**: the loader accepts a row whose rank field
is `"0"` (an all-digits string, so it passes `isdigit`), producing
`rank = 0`, and `parse_number` keeps the sign of `"-5"`, producing
`beneficiaries = -5 < 0`. -/
theorem read_csv_data_counterexample :
    ¬ (∀ c ∈ read_csv_data [badRow] (some 2016),
        0 ≤ c.beneficiaries ∧ 0 < c.rank) := by
  decide

/-- **C5 (amended).** Every record produced by the loader comes from a
row passing the checks (stripped rank nonempty and all digits, resolved
name nonempty), its rank is the numeric value of the all-digits rank
field — positive whenever that field has a nonzero digit — and its
beneficiaries value is `parse_number` of the resolved beneficiaries
field, nonnegative whenever that field has no minus sign; the output
length equals the number of rows passing the checks. -/
theorem read_csv_data_guarantees (rows : List Row) (year : Option ℕ) :
    (read_csv_data rows year).length = (rows.filter rowPasses).length ∧
    ∀ c ∈ read_csv_data rows year, ∃ row ∈ rows, rowPasses row = true ∧
      c.rank = digitsVal (pyStrip row.rank).toList ∧
      pyIsDigit (pyStrip row.rank) = true ∧
      ((∃ ch ∈ (pyStrip row.rank).toList, ch ≠ '0') → 0 < c.rank) ∧
      c.beneficiaries =
        (if beneficiariesField row ≠ "" then parse_number (beneficiariesField row) else 0) ∧
      ('-' ∉ (beneficiariesField row).toList → 0 ≤ c.beneficiaries) := by
  constructor
  · exact length_filterMap_eq_length_filter _ _ (parseRow_isSome year) rows
  · intro c hc
    obtain ⟨row, hrow, hparse⟩ := List.mem_filterMap.mp hc
    have hpass : rowPasses row = true := by
      rw [← parseRow_isSome year, hparse]
      rfl
    refine ⟨row, hrow, hpass, ?_⟩
    unfold parseRow at hparse
    dsimp only at hparse
    split at hparse
    · cases hparse
    · split at hparse
      · cases hparse
      · rename_i h1 h2
        have hdig : pyIsDigit (pyStrip row.rank) = true := by
          simp only [Bool.or_eq_true, decide_eq_true_eq, Bool.not_eq_true', not_or] at h1
          simpa using h1.2
        obtain rfl := Option.some.inj hparse
        refine ⟨rfl, hdig, ?_, rfl, ?_⟩
        · intro hnz
          apply digitsVal_pos _ hnz
          intro ch hch
          unfold pyIsDigit at hdig
          have hall := ((Bool.and_eq_true _ _).mp hdig).2
          exact List.all_eq_true.mp hall ch hch
        · intro hm
          by_cases hb : beneficiariesField row = ""
          · simp [hb]
          · simp only [ne_eq, hb, not_false_iff, if_true]
            exact parse_number_nonneg hm

/-- A well-formed CSV row for concrete checks. -/
def goodRow : Row :=
  { rank := "2", shortName := "Acme", beneficiariesApproved := "1,500" }

/-- The record the loader produces from `goodRow`. -/
def goodCompany : Company :=
  { rank := 2, is_icc := false, name := "Acme", full_name := "Acme",
    beneficiaries := 1500, rank_change_direction := none,
    rank_change_value := none, year := some 2016 }

theorem read_csv_data_guarantees_witness :
    (read_csv_data [goodRow] (some 2016)).length =
      ([goodRow].filter rowPasses).length ∧
    ∃ row ∈ [goodRow], rowPasses row = true ∧
      goodCompany.rank = digitsVal (pyStrip row.rank).toList ∧
      pyIsDigit (pyStrip row.rank) = true ∧
      ((∃ ch ∈ (pyStrip row.rank).toList, ch ≠ '0') → 0 < goodCompany.rank) ∧
      goodCompany.beneficiaries =
        (if beneficiariesField row ≠ "" then parse_number (beneficiariesField row) else 0) ∧
      ('-' ∉ (beneficiariesField row).toList → 0 ≤ goodCompany.beneficiaries) :=
  ⟨(read_csv_data_guarantees [goodRow] (some 2016)).1,
   (read_csv_data_guarantees [goodRow] (some 2016)).2 goodCompany (by decide)⟩

/-! ### C3 and C7: color assignment -/

lemma process_companies_getElem? (l : List Company) (k : ℕ) :
    (process_companies l)[k]? =
      ((List.insertionSort benGe l)[k]?).map (fun a =>
        { name := a.name, full_name := a.full_name,
          beneficiaries := a.beneficiaries, rank := a.rank,
          is_icc := a.is_icc,
          rank_change_direction := a.rank_change_direction,
          rank_change_value := a.rank_change_value,
          brand_color :=
            generate_color a.is_icc k (List.insertionSort benGe l).length }) := by
  unfold process_companies
  dsimp only
  rw [List.getElem?_map, List.getElem?_enum]
  cases (List.insertionSort benGe l)[k]? <;> rfl

lemma generate_color_hue_eq (flag : Bool) (i n j m : ℕ) :
    (generate_color flag i n).hue = (generate_color flag j m).hue := by
  cases flag <;> rfl

lemma generate_color_lightness_lt (flag : Bool) {i j n : ℕ}
    (hij : i < j) (hj : j < n) :
    (generate_color flag j n).lightness < (generate_color flag i n).lightness := by
  have hn : (0 : ℚ) < (n : ℚ) := by exact_mod_cast Nat.pos_of_ne_zero (by omega)
  have hij' : (i : ℚ) < (j : ℚ) := by exact_mod_cast hij
  have key : (i : ℚ) / (n : ℚ) < (j : ℚ) / (n : ℚ) := by gcongr
  cases flag <;> simp [generate_color] <;> linarith

lemma generate_color_saturation_lt (flag : Bool) {i j n : ℕ}
    (hij : i < j) (hj : j < n) :
    (generate_color flag i n).saturation < (generate_color flag j n).saturation := by
  have hn : (0 : ℚ) < (n : ℚ) := by exact_mod_cast Nat.pos_of_ne_zero (by omega)
  have hij' : (i : ℚ) < (j : ℚ) := by exact_mod_cast hij
  have key : (i : ℚ) / (n : ℚ) < (j : ℚ) / (n : ℚ) := by gcongr
  cases flag <;> simp [generate_color] <;> linarith

/-- **C3 is false as stated**: in a two-record year the record at sorted
position 0 (the higher-ranked one, with more beneficiaries) gets a
*higher* lightness (85 vs 72.5) and a *lower* saturation (15 vs 22.5)
than the record at position 1 — the lighter, less saturated shade, not
the darker, more saturated one claimed. -/
theorem generate_color_counterexample :
    (generate_color false 0 2).lightness > (generate_color false 1 2).lightness ∧
    (generate_color false 0 2).saturation < (generate_color false 1 2).saturation := by
  unfold generate_color
  norm_num

/-- **C3 (amended).** In a processed year (records sorted by
beneficiaries descending), the color's hue depends only on the flagged
category, and saturation/lightness vary with the sorted position so
that records *earlier* in the order receive *lighter* (higher
lightness) and *less* saturated shades than records later in the order
within the same hue family. -/
theorem color_order_amended (l : List Company) (i j : ℕ) (hij : i < j)
    (c1 c2 : ProcessedCompany)
    (hc1 : (process_companies l)[i]? = some c1)
    (hc2 : (process_companies l)[j]? = some c2)
    (hcat : c1.is_icc = c2.is_icc) :
    c1.brand_color.hue = c2.brand_color.hue ∧
    c2.brand_color.lightness < c1.brand_color.lightness ∧
    c1.brand_color.saturation < c2.brand_color.saturation := by
  rw [process_companies_getElem?] at hc1 hc2
  obtain ⟨a, ha, rfl⟩ := Option.map_eq_some'.mp hc1
  obtain ⟨b, hb, rfl⟩ := Option.map_eq_some'.mp hc2
  have hflag : a.is_icc = b.is_icc := hcat
  obtain ⟨hjlen, -⟩ := List.getElem?_eq_some.mp hb
  dsimp only
  rw [hflag]
  exact ⟨generate_color_hue_eq _ _ _ _ _,
    generate_color_lightness_lt _ hij hjlen,
    generate_color_saturation_lt _ hij hjlen⟩

/-- Two-record year used in concrete color checks. -/
def bigCo : Company :=
  { rank := 1, is_icc := false, name := "Big", full_name := "Big",
    beneficiaries := 500, rank_change_direction := none,
    rank_change_value := none, year := some 2020 }

/-- Second record of the two-record year. -/
def smallCo : Company :=
  { rank := 2, is_icc := false, name := "Small", full_name := "Small",
    beneficiaries := 300, rank_change_direction := none,
    rank_change_value := none, year := some 2020 }

/-- Processed form of `bigCo` at sorted position 0 of 2. -/
def bigCoProcessed : ProcessedCompany :=
  { name := "Big", full_name := "Big", beneficiaries := 500, rank := 1,
    is_icc := false, rank_change_direction := none,
    rank_change_value := none, brand_color := generate_color false 0 2 }

/-- Processed form of `smallCo` at sorted position 1 of 2. -/
def smallCoProcessed : ProcessedCompany :=
  { name := "Small", full_name := "Small", beneficiaries := 300, rank := 2,
    is_icc := false, rank_change_direction := none,
    rank_change_value := none, brand_color := generate_color false 1 2 }

theorem color_order_amended_witness :
    bigCoProcessed.brand_color.hue = smallCoProcessed.brand_color.hue ∧
    smallCoProcessed.brand_color.lightness < bigCoProcessed.brand_color.lightness ∧
    bigCoProcessed.brand_color.saturation < smallCoProcessed.brand_color.saturation :=
  color_order_amended [bigCo, smallCo] 0 1 (by decide)
    bigCoProcessed smallCoProcessed rfl rfl rfl

/-- Single-record year used in concrete color checks. -/
def soloCompany : Company :=
  { rank := 1, is_icc := false, name := "Zed", full_name := "Zed",
    beneficiaries := 10, rank_change_direction := none,
    rank_change_value := none, year := some 2020 }

/-- Processed form of `soloCompany` at position 0 of 1. -/
def soloProcessed : ProcessedCompany :=
  { name := "Zed", full_name := "Zed", beneficiaries := 10, rank := 1,
    is_icc := false, rank_change_direction := none,
    rank_change_value := none, brand_color := generate_color false 0 1 }

/-- **C7.** Color assignment is a pure deterministic function of
(category flag, sorted position, set size): every record's emitted
color is exactly `generate_color` of its own flag, its position, and
the year's record count — so identical inputs always yield identical
colors — and two positions of the same category within one year always
receive different lightness values. -/
theorem generate_color_deterministic (flag : Bool) (n i j : ℕ)
    (hi : i < n) (hj : j < n) (hne : i ≠ j) :
    (generate_color flag i n).lightness ≠ (generate_color flag j n).lightness ∧
    ∀ (l : List Company) (k : ℕ) (c : ProcessedCompany),
      (process_companies l)[k]? = some c →
      c.brand_color = generate_color c.is_icc k l.length := by
  constructor
  · rcases hne.lt_or_lt with h | h
    · exact (generate_color_lightness_lt flag h hj).ne'
    · exact (generate_color_lightness_lt flag h hi).ne
  · intro l k c hc
    rw [process_companies_getElem?] at hc
    obtain ⟨a, ha, rfl⟩ := Option.map_eq_some'.mp hc
    dsimp only
    rw [List.length_insertionSort]

theorem generate_color_deterministic_witness :
    (generate_color false 0 2).lightness ≠ (generate_color false 1 2).lightness ∧
    soloProcessed.brand_color = generate_color soloProcessed.is_icc 0 [soloCompany].length :=
  ⟨(generate_color_deterministic false 2 0 1 (by decide) (by decide) (by decide)).1,
   (generate_color_deterministic false 2 0 1 (by decide) (by decide) (by decide)).2
     [soloCompany] 0 soloProcessed rfl⟩

/-! ### The per-year loop of `generate_heatmap_html` -/

lemma processLoop_cons (d : List (ℕ × List Company)) (p : Option ℕ)
    (y : ℕ) (rest : List ℕ) :
    processLoop d p (y :: rest) =
      (y, process_companies
        (match p with
         | none => lookupYear d y
         | some py => calculate_rank_changes (lookupYear d py) (lookupYear d y))) ::
      processLoop d (some y) rest := rfl

lemma processLoop_getElem?_succ (d : List (ℕ × List Company)) :
    ∀ (ys : List ℕ) (p : Option ℕ) (i : ℕ) (py y : ℕ),
      ys[i]? = some py → ys[i + 1]? = some y →
      (processLoop d p ys)[i + 1]? =
        some (y, process_companies
          (calculate_rank_changes (lookupYear d py) (lookupYear d y))) := by
  intro ys
  induction ys with
  | nil =>
    intro p i py y h1 h2
    simp at h1
  | cons a rest ih =>
    intro p i py y h1 h2
    cases i with
    | zero =>
      rw [List.getElem?_cons_zero] at h1
      obtain rfl := Option.some.inj h1
      rw [List.getElem?_cons_succ] at h2
      rcases rest with _ | ⟨y2, rest2⟩
      · simp at h2
      · rw [List.getElem?_cons_zero] at h2
        obtain rfl := Option.some.inj h2
        rw [processLoop_cons, List.getElem?_cons_succ, processLoop_cons,
          List.getElem?_cons_zero]
    | succ i2 =>
      rw [List.getElem?_cons_succ] at h1 h2
      rw [processLoop_cons, List.getElem?_cons_succ]
      exact ih (some a) i2 py y h1 h2

lemma processLoop_map_fst (d : List (ℕ × List Company)) :
    ∀ (ys : List ℕ) (p : Option ℕ), (processLoop d p ys).map Prod.fst = ys := by
  intro ys
  induction ys with
  | nil => intro p; rfl
  | cons a rest ih =>
    intro p
    rw [processLoop_cons]
    simp [ih]

lemma processLoop_length (d : List (ℕ × List Company)) (ys : List ℕ)
    (p : Option ℕ) : (processLoop d p ys).length = ys.length := by
  have := congrArg List.length (processLoop_map_fst d ys p)
  simpa using this

lemma sortedYears_sorted (d : List (ℕ × List Company)) :
    List.Sorted (· ≤ ·) (sortedYears d) :=
  List.sorted_insertionSort _ _

lemma mem_sortedYears {d : List (ℕ × List Company)} {y : ℕ} :
    y ∈ sortedYears d ↔ y ∈ d.map Prod.fst :=
  (List.perm_insertionSort _ _).mem_iff

/-! ### C9: deltas relative to the most recent earlier loaded year -/

/-- **C9.** In the per-year loop, the year at position `i+1` of the
sorted loaded-year list has its rank changes computed against the year
at position `i` — and by sortedness that year is the most recent
*loaded* year before it (every loaded year less than `y` is at most
`py`), not the preceding calendar year. -/
theorem rank_changes_use_most_recent_loaded (d : List (ℕ × List Company))
    (i : ℕ) (py y : ℕ)
    (hpy : (sortedYears d)[i]? = some py)
    (hy : (sortedYears d)[i + 1]? = some y) :
    (generate_heatmap_data d)[i + 1]? =
      some (y, process_companies
        (calculate_rank_changes (lookupYear d py) (lookupYear d y))) ∧
    ∀ z ∈ d.map Prod.fst, z < y → z ≤ py := by
  constructor
  · exact processLoop_getElem?_succ d _ none i py y hpy hy
  · intro z hz hzy
    have hzs : z ∈ sortedYears d := mem_sortedYears.mpr hz
    obtain ⟨k, hklt, hkz⟩ := List.mem_iff_getElem.mp hzs
    obtain ⟨hilt, hpy2⟩ := List.getElem?_eq_some.mp hpy
    obtain ⟨hi1lt, hy2⟩ := List.getElem?_eq_some.mp hy
    have hsort := sortedYears_sorted d
    by_cases hki : k ≤ i
    · rcases eq_or_lt_of_le hki with rfl | hklt2
      · omega
      · have := hsort.rel_get_of_lt
          (a := ⟨k, hklt⟩) (b := ⟨i, hilt⟩) hklt2
        simp only [List.get_eq_getElem] at this
        omega
    · have hik : i + 1 ≤ k := by omega
      rcases eq_or_lt_of_le hik with heq | hlt
      · subst heq
        omega
      · have := hsort.rel_get_of_lt
          (a := ⟨i + 1, hi1lt⟩) (b := ⟨k, hklt⟩) hlt
        simp only [List.get_eq_getElem] at this
        omega

/-- Loaded data with 2018 absent: 2017 and 2019 only. -/
def gapYears : List (ℕ × List Company) :=
  [(2017, [prevAcme]), (2019, [curAcme])]

theorem rank_changes_use_most_recent_loaded_witness :
    (generate_heatmap_data gapYears)[0 + 1]? =
      some (2019, process_companies
        (calculate_rank_changes (lookupYear gapYears 2017)
          (lookupYear gapYears 2019))) ∧
    (2017 : ℕ) ≤ 2017 :=
  ⟨(rank_changes_use_most_recent_loaded gapYears 0 2017 2019
      (by decide) (by decide)).1,
   (rank_changes_use_most_recent_loaded gapYears 0 2017 2019
      (by decide) (by decide)).2 2017 (by decide) (by decide)⟩

/-! ### C2: provenance of rank-change directions -/

lemma mem_process_companies {l : List Company} {pc : ProcessedCompany}
    (hpc : pc ∈ process_companies l) :
    ∃ a ∈ l, pc.name = a.name ∧ pc.rank = a.rank ∧
      pc.rank_change_direction = a.rank_change_direction := by
  obtain ⟨k, hk⟩ := List.mem_iff_getElem?.mp hpc
  rw [process_companies_getElem?] at hk
  obtain ⟨a, ha, rfl⟩ := Option.map_eq_some'.mp hk
  obtain ⟨hlt, hget⟩ := List.getElem?_eq_some.mp ha
  have hmem : a ∈ List.insertionSort benGe l := hget ▸ List.getElem_mem hlt
  exact ⟨a, (List.perm_insertionSort benGe l).subset hmem, rfl, rfl, rfl⟩

lemma direction_of_calculate {prev cur : List Company} (hprev : prev ≠ [])
    {c : Company} (hc : c ∈ calculate_rank_changes prev cur)
    (hdir : c.rank_change_direction ≠ none) :
    ∃ p ∈ prev, nameKey p = nameKey c ∧ p.rank ≠ c.rank := by
  unfold calculate_rank_changes at hc
  by_cases hcur : cur = []
  · rw [if_pos (by simp [hcur])] at hc
    rw [hcur] at hc
    cases hc
  · rw [if_neg (by simp [hprev, hcur])] at hc
    obtain ⟨c0, hc0, rfl⟩ := List.mem_map.mp hc
    rcases hm : buildRankMap prev (nameKey c0) with _ | r
    · rw [updateRankChange_of_none hm] at hdir
      simp at hdir
    · obtain ⟨p, hp, hk, hr⟩ := exists_of_buildRankMap_some hm
      rcases lt_trichotomy ((r : ℤ) - (c0.rank : ℤ)) 0 with h | h | h
      · rw [updateRankChange_of_neg hm h]
        exact ⟨p, hp, hk, show p.rank ≠ c0.rank by omega⟩
      · rw [updateRankChange_of_zero hm h] at hdir
        simp at hdir
      · rw [updateRankChange_of_pos hm h]
        exact ⟨p, hp, hk, show p.rank ≠ c0.rank by omega⟩

/-- A row carrying a rank-change annotation in the source text. -/
def annotatedRow : Row :=
  { rank := "1", shortName := "Acme", beneficiariesApproved := "10",
    rankChange := "⬆️3" }

/-- **C2 is false as stated**: with a single loaded year whose CSV row
carries the annotation `⬆️3`, the serialized output of that (earliest)
year contains a record with `rank_change_direction = up`, even though
no prior year's set exists at all. -/
theorem earliest_year_direction_counterexample :
    (generate_heatmap_data
        [(2016, read_csv_data [annotatedRow] (some 2016))]).map
      (fun e => e.snd.map (fun c => c.rank_change_direction)) =
      [[some Direction.up]] := rfl

lemma lookupYear_ne_empty {d : List (ℕ × List Company)} {y : ℕ}
    (hy : y ∈ d.map Prod.fst) (hne : ∀ e ∈ d, e.snd ≠ []) :
    lookupYear d y ≠ [] := by
  unfold lookupYear
  obtain ⟨e, he, rfl⟩ := List.mem_map.mp hy
  have hsome : (d.find? (fun x => x.1 == e.1)).isSome := by
    rw [List.find?_isSome]
    exact ⟨e, he, by simp⟩
  obtain ⟨e2, he2⟩ := Option.isSome_iff_exists.mp hsome
  rw [he2]
  exact hne e2 (List.mem_of_find?_eq_some he2)

/-- **C2 (amended).** In the serialized output, a record of a year that
has an earlier loaded year carries a non-empty `rank_change_direction`
only if a record with the same case-insensitive stripped name existed in
the immediately preceding loaded year's (nonempty) set with a different
rank.  (Records of the earliest loaded year are not covered: they
retain any direction parsed from the source-text annotation, as the
counterexample shows.) -/
theorem direction_only_from_prior_loaded (d : List (ℕ × List Company))
    (hne : ∀ e ∈ d, e.snd ≠ [])
    (i : ℕ) (py y : ℕ) (comps : List ProcessedCompany)
    (hpy : (sortedYears d)[i]? = some py)
    (hy : (generate_heatmap_data d)[i + 1]? = some (y, comps))
    (c : ProcessedCompany) (hc : c ∈ comps)
    (hdir : c.rank_change_direction ≠ none) :
    ∃ p ∈ lookupYear d py,
      nameKey p = pyStrip (pyLower c.name) ∧ p.rank ≠ c.rank := by
  obtain ⟨hlen, hget⟩ := List.getElem?_eq_some.mp hy
  have hlen2 : i + 1 < (sortedYears d).length := by
    rw [generate_heatmap_data, processLoop_length] at hlen
    exact hlen
  have hy2 : (sortedYears d)[i + 1]? = some ((sortedYears d)[i + 1]) :=
    List.getElem?_eq_getElem hlen2
  have heq := processLoop_getElem?_succ d (sortedYears d) none i py
    ((sortedYears d)[i + 1]) hpy hy2
  rw [generate_heatmap_data] at hy
  rw [hy] at heq
  have hcomps : comps = process_companies
      (calculate_rank_changes (lookupYear d py)
        (lookupYear d ((sortedYears d)[i + 1]))) :=
    congrArg Prod.snd (Option.some.inj heq)
  rw [hcomps] at hc
  obtain ⟨a, ha, hname, hrank, hdir2⟩ := mem_process_companies hc
  rw [hdir2] at hdir
  have hpymem : py ∈ d.map Prod.fst := by
    rw [← mem_sortedYears]
    obtain ⟨hplt, hpget⟩ := List.getElem?_eq_some.mp hpy
    exact hpget ▸ List.getElem_mem hplt
  have hprev : lookupYear d py ≠ [] := lookupYear_ne_empty hpymem hne
  obtain ⟨p, hp, hpk, hprk⟩ := direction_of_calculate hprev ha hdir
  refine ⟨p, hp, ?_, ?_⟩
  · rw [hpk]
    unfold nameKey
    rw [hname]
  · rw [hrank]
    exact hprk

/-- Processed form of `curAcme` after the rank-delta pass in `gapYears`. -/
def curAcmeProcessed : ProcessedCompany :=
  { name := "ACME", full_name := "Acme Corp", beneficiaries := 120, rank := 3,
    is_icc := false, rank_change_direction := some .up,
    rank_change_value := some 2, brand_color := generate_color false 0 1 }

theorem direction_only_from_prior_loaded_witness :
    ∃ p ∈ lookupYear gapYears 2017,
      nameKey p = pyStrip (pyLower curAcmeProcessed.name) ∧
      p.rank ≠ curAcmeProcessed.rank :=
  direction_only_from_prior_loaded gapYears (by decide) 0 2017 2019
    (process_companies
      (calculate_rank_changes (lookupYear gapYears 2017)
        (lookupYear gapYears 2019)))
    (by decide) rfl curAcmeProcessed (List.Mem.head _) (by decide)

/-! ### C4, C8, C10: behavior of `main` -/

lemma loadYear_fst {files : ℕ → Option (List Row)} {a : ℕ}
    {e : ℕ × List Company} (h : loadYear files a = some e) : e.1 = a := by
  unfold loadYear at h
  rcases hf : files a with _ | rows
  · rw [hf] at h
    cases h
  · rw [hf] at h
    dsimp only at h
    split at h
    · cases h
    · obtain rfl := Option.some.inj h
      rfl

lemma loadedData_eq_nil {files : ℕ → Option (List Row)}
    (h : ∀ y ∈ configuredYears, ∀ rows, files y = some rows →
      read_csv_data rows (some y) = []) :
    loadedData files = [] := by
  unfold loadedData
  rw [List.filterMap_eq_nil_iff]
  intro y hy
  unfold loadYear
  rcases hf : files y with _ | rows
  · rfl
  · have hempty := h y hy rows hf
    simp [hempty]

/-- **C4 is false as stated**: with no file present for any year, `main`
aborts before generating output and prints the error message, but it
simply returns — the process exit code is `0`, not a non-zero outcome
distinguishable from success. -/
theorem no_data_counterexample :
    mainModel (fun _ => none) =
      MainOutcome.aborted "❌ Error: No data found for any year!" 0 ∧
    exitCodeOf (mainModel (fun _ => none)) = 0 := by
  constructor <;> rfl

/-- **C4 (amended).** If no year is successfully loaded (every
configured year's data set is empty), `main` aborts before generating
output and emits a clear error message, but returns normally with exit
code `0` — there is no non-zero outcome. -/
theorem no_data_abort (files : ℕ → Option (List Row))
    (h : ∀ y ∈ configuredYears, ∀ rows, files y = some rows →
      read_csv_data rows (some y) = []) :
    mainModel files = .aborted "❌ Error: No data found for any year!" 0 := by
  have hld := loadedData_eq_nil h
  unfold mainModel
  simp [hld]

/-- Files with a single year present whose rows all fail the checks. -/
def badRankRow : Row := { rank := "n/a", shortName := "X" }

/-- A file table where only 2016 exists and parses to no records. -/
def filesEmptyYear : ℕ → Option (List Row) :=
  fun y => if y = 2016 then some [badRankRow] else none

lemma filesEmptyYear_all_empty :
    ∀ y ∈ configuredYears, ∀ rows, filesEmptyYear y = some rows →
      read_csv_data rows (some y) = [] := by
  intro y hy rows hf
  by_cases h16 : y = 2016
  · subst h16
    simp only [filesEmptyYear, if_pos rfl] at hf
    obtain rfl := Option.some.inj hf
    decide
  · simp [filesEmptyYear, h16] at hf

theorem no_data_abort_witness :
    mainModel filesEmptyYear =
      MainOutcome.aborted "❌ Error: No data found for any year!" 0 :=
  no_data_abort filesEmptyYear filesEmptyYear_all_empty

/-- **C8.** A missing CSV for one configured year does not abort a
multi-year run: the outcome is still `generated`, the missing year is
absent from the output, and every configured year whose file loads to a
nonempty record set appears in the output. -/
theorem missing_year_not_fatal (files : ℕ → Option (List Row))
    (y0 : ℕ) (hy0 : y0 ∈ configuredYears) (h0 : files y0 = none)
    (y1 : ℕ) (rows1 : List Row) (hy1 : y1 ∈ configuredYears)
    (h1 : files y1 = some rows1) (hne : read_csv_data rows1 (some y1) ≠ []) :
    ∃ out, mainModel files = .generated out 0 ∧
      y0 ∉ out.map Prod.fst ∧
      ∀ y rows, y ∈ configuredYears → files y = some rows →
        read_csv_data rows (some y) ≠ [] → y ∈ out.map Prod.fst := by
  have hmem : (y1, read_csv_data rows1 (some y1)) ∈ loadedData files := by
    unfold loadedData
    rw [List.mem_filterMap]
    refine ⟨y1, hy1, ?_⟩
    unfold loadYear
    rw [h1]
    simp [hne]
  have hnonempty : loadedData files ≠ [] := List.ne_nil_of_mem hmem
  refine ⟨generate_heatmap_data (loadedData files), ?_, ?_, ?_⟩
  · unfold mainModel
    simp [hnonempty]
  · rw [generate_heatmap_data, processLoop_map_fst]
    intro hmem0
    rw [mem_sortedYears] at hmem0
    obtain ⟨e, he, hfst⟩ := List.mem_map.mp hmem0
    obtain ⟨a, _, hload⟩ := List.mem_filterMap.mp he
    have hea : e.1 = a := loadYear_fst hload
    rw [hea] at hfst
    subst hfst
    unfold loadYear at hload
    rw [h0] at hload
    cases hload
  · intro y rows hy hf hner
    rw [generate_heatmap_data, processLoop_map_fst, mem_sortedYears]
    refine List.mem_map.mpr ⟨(y, read_csv_data rows (some y)), ?_, rfl⟩
    unfold loadedData
    rw [List.mem_filterMap]
    refine ⟨y, hy, ?_⟩
    unfold loadYear
    rw [hf]
    simp [hner]

/-- A file table with 2016 present but empty-parsing, 2017 loading one
record, and every other year missing. -/
def filesMixed : ℕ → Option (List Row) :=
  fun y =>
    if y = 2016 then some [badRankRow]
    else if y = 2017 then some [goodRow] else none

theorem missing_year_not_fatal_witness :
    ∃ out, mainModel filesMixed = MainOutcome.generated out 0 ∧
      2018 ∉ out.map Prod.fst ∧
      ∀ y rows, y ∈ configuredYears → filesMixed y = some rows →
        read_csv_data rows (some y) ≠ [] → y ∈ out.map Prod.fst :=
  missing_year_not_fatal filesMixed 2018 (by decide) (by decide)
    2017 [goodRow] (by decide) (by decide) (by decide)

/-- **C10.** A year whose CSV exists but parses to zero records is
omitted exactly as if its file were missing (the outcome is unchanged
when that file is replaced by no file), and when every configured year
is in that state the run takes the same fatal no-data path as when all
files are absent. -/
theorem empty_year_like_missing (files : ℕ → Option (List Row)) (y0 : ℕ)
    (rows0 : List Row) (h0 : files y0 = some rows0)
    (hempty : read_csv_data rows0 (some y0) = []) :
    mainModel files = mainModel (fun y => if y = y0 then none else files y) ∧
    ((∀ y ∈ configuredYears, ∀ rows, files y = some rows →
        read_csv_data rows (some y) = []) →
      mainModel files = mainModel (fun _ => none)) := by
  constructor
  · have hld : loadedData files =
        loadedData (fun y => if y = y0 then none else files y) := by
      unfold loadedData
      apply List.filterMap_congr
      intro a _
      by_cases hay : a = y0
      · subst hay
        unfold loadYear
        rw [h0]
        simp [hempty]
      · unfold loadYear
        simp [hay]
    unfold mainModel
    rw [hld]
  · intro hall
    have h1 := loadedData_eq_nil hall
    have h2 : loadedData (fun _ => none) = [] := rfl
    unfold mainModel
    simp [h1, h2]

theorem empty_year_like_missing_witness :
    (mainModel filesMixed =
      mainModel (fun y => if y = 2016 then none else filesMixed y)) ∧
    (mainModel filesEmptyYear = mainModel (fun _ => none)) :=
  ⟨(empty_year_like_missing filesMixed 2016 [badRankRow]
      (by decide) (by decide)).1,
   (empty_year_like_missing filesEmptyYear 2016 [badRankRow]
      (by decide) (by decide)).2 filesEmptyYear_all_empty⟩
